import Mathlib

/-!
Shallow embedding of the react-segment-hooks event-queueing wrapper
(`SegmentClient` in src/lib/client.ts) together with the `useSegment`
context hook (src/lib/provider.tsx).

Modelling choices:
  * The underlying analytics.js handle (`Analytics`) is abstract; for each of
    the five event methods it records whether a synchronous invocation throws
    (and with which error message).  All other handle methods are modelled as
    non-throwing, matching the code paths that never wrap them in try/catch.
  * Promises are numbered by a counter `nextP`; resolving / rejecting promise
    `p` is recorded as a trace event.  The underlying client is modelled as
    invoking each completion callback synchronously at the point of the
    underlying invocation (the timing collapse does not affect any claim:
    all claims are about whether/relative-order of events, and the relative
    order of an invocation and its own completion is preserved).
  * The Node `EventEmitter` once-listeners for the `'initialize'` event are an
    explicit list; `emit` snapshots the list, clears it, and runs the snapshot
    in registration order.  Listeners registered while the snapshot runs land
    in the live list and are never invoked by the same emit — and the event is
    emitted at most once per wrapper, exactly as in the source.
  * `console.log` debug output is not modelled (no claim concerns it).
-/

namespace ReactSegmentHooks

/-- Caller-supplied properties (`Record<string, any>`), modelled as an
association list since the wrapper only passes them through verbatim. -/
abbrev Properties := List (String × String)

/-- A context object inside Segment options: either an opaque object supplied
by the caller, or the `\x7b ip \x7d` object the wrapper builds itself. -/
inductive Ctx where
  | user (tag : Nat)
  | injected (ip : Option String)
deriving DecidableEq, Repr

/-- The `SegmentOpts` record from src/lib/types.ts. -/
structure SegmentOpts where
  integrations : Option Nat := none
  anonymousId : Option String := none
  context : Option Ctx := none
deriving DecidableEq, Repr

/-- Constructor options of the wrapper. -/
structure Options where
  apiKey : String
  debug : Option Bool := none
  timeout : Option Nat := none
  anonymizeIp : Option Bool := none
deriving DecidableEq, Repr

/-- The five event categories of `EventType` in src/lib/types.ts. -/
inductive EventType where
  | track | alias | group | identify | page
deriving DecidableEq, Repr

/-- The event-method argument records from src/lib/types.ts. -/
structure PageEvent where
  name : Option String := none
  category : Option String := none
  properties : Option Properties := none
  options : Option SegmentOpts := none
deriving DecidableEq, Repr

structure IdentifyEvent where
  userId : String
  traits : Option Properties := none
  options : Option SegmentOpts := none
deriving DecidableEq, Repr

structure TrackEvent where
  event : String
  properties : Option Properties := none
  options : Option SegmentOpts := none
deriving DecidableEq, Repr

structure AliasEvent where
  userId : String
  previousId : Option String := none
  options : Option SegmentOpts := none
deriving DecidableEq, Repr

structure GroupEvent where
  groupId : String
  traits : Option Properties := none
  options : Option SegmentOpts := none
deriving DecidableEq, Repr

/-- The underlying analytics.js handle.  Each field says whether the
corresponding underlying method throws synchronously when invoked (with which
error); `none` means the invocation succeeds and its completion callback
fires. -/
structure Analytics where
  throwsPage : Option String := none
  throwsIdentify : Option String := none
  throwsAlias : Option String := none
  throwsTrack : Option String := none
  throwsGroup : Option String := none
deriving DecidableEq, Repr

/-- An invocation on the underlying handle, with the exact arguments the
wrapper passes (src/lib/client.ts).  Note `alias` forwards the caller options
verbatim (possibly `undefined`), while the other four event methods pass a
definite merged options object. -/
inductive UCall where
  | page (category name : Option String) (properties : Option Properties)
      (options : SegmentOpts)
  | identify (userId : String) (traits : Option Properties)
      (options : SegmentOpts)
  | aliasU (userId : String) (previousId : Option String)
      (options : Option SegmentOpts)
  | track (event : String) (properties : Option Properties)
      (options : SegmentOpts)
  | group (groupId : String) (traits : Option Properties)
      (options : SegmentOpts)
  | ready
  | onU (method : EventType)
  | setAnonymousId (id : String)
deriving DecidableEq, Repr

/-- Observable events of a wrapper run, in order of occurrence. -/
inductive Ev where
  | invoke (c : UCall)
  | resolveP (p : Nat)
  | rejectP (p : Nat) (err : String)
  | cfgTimeout (ms : Nat)
  | cfgDebug (b : Bool)
  | emitInit
deriving DecidableEq, Repr

/-- A once-listener registered on the emitter for the `'initialize'` event.
`pageL` stores the original promise because the deferred page path chains the
replay with `.then(resolve)`; `setAnonL` stores it because its deferred path
calls `resolve()` right after re-invoking; the other deferred paths drop the
original resolver entirely, exactly as in the source. -/
inductive Listener where
  | pageL (e : PageEvent) (p : Nat)
  | identifyL (e : IdentifyEvent)
  | aliasL (e : AliasEvent)
  | trackL (t : TrackEvent)
  | groupL (e : GroupEvent)
  | readyL
  | onL (m : EventType)
  | setAnonL (id : String) (p : Nat)
deriving DecidableEq, Repr

/-- The state of one `SegmentClient` wrapper instance. -/
structure SegmentState where
  client : Option Analytics := none
  options : Options
  listeners : List Listener := []
  nextP : Nat := 0
  trace : List Ev := []
deriving DecidableEq, Repr

/-- The state of a freshly constructed wrapper. -/
def initialState (opts : Options) : SegmentState := { options := opts }

/-- The merged options object built by page/identify/track/group:
`\x7b ...options, context: \x7b ip: anonymizeIp ? '0.0.0.0' : undefined \x7d \x7d`.
Spreading an `undefined` options object yields an empty record. -/
def mergedOpts (options : Option SegmentOpts) (anonymizeIp : Bool) : SegmentOpts :=
  let ctx : Ctx := Ctx.injected (if anonymizeIp then some "0.0.0.0" else none)
  match options with
  | none => { context := some ctx }
  | some o => { o with context := some ctx }

namespace SegmentClient

/-- Models `SegmentClient.page`.  Returns the new state and the id of the
promise handed back to the caller. -/
def page (e : PageEvent) (s : SegmentState) : SegmentState × Nat :=
  let p := s.nextP
  match s.client with
  | some h =>
    let u := UCall.page e.category e.name e.properties
      (mergedOpts e.options (s.options.anonymizeIp.getD false))
    match h.throwsPage with
    | none =>
      ({ s with nextP := p + 1, trace := s.trace ++ [Ev.invoke u, Ev.resolveP p] }, p)
    | some err =>
      ({ s with nextP := p + 1, trace := s.trace ++ [Ev.invoke u, Ev.rejectP p err] }, p)
  | none =>
    ({ s with nextP := p + 1, listeners := s.listeners ++ [Listener.pageL e p] }, p)

/-- Models `SegmentClient.identify`.  The deferred path drops the original
resolver (`this.identify(event)` with no `.then`). -/
def identify (e : IdentifyEvent) (s : SegmentState) : SegmentState × Nat :=
  let p := s.nextP
  match s.client with
  | some h =>
    let u := UCall.identify e.userId e.traits
      (mergedOpts e.options (s.options.anonymizeIp.getD false))
    match h.throwsIdentify with
    | none =>
      ({ s with nextP := p + 1, trace := s.trace ++ [Ev.invoke u, Ev.resolveP p] }, p)
    | some err =>
      ({ s with nextP := p + 1, trace := s.trace ++ [Ev.invoke u, Ev.rejectP p err] }, p)
  | none =>
    ({ s with nextP := p + 1, listeners := s.listeners ++ [Listener.identifyL e] }, p)

/-- Models `SegmentClient.alias`.  The caller options are forwarded verbatim:
no context object is injected. -/
def aliasM (e : AliasEvent) (s : SegmentState) : SegmentState × Nat :=
  let p := s.nextP
  match s.client with
  | some h =>
    let u := UCall.aliasU e.userId e.previousId e.options
    match h.throwsAlias with
    | none =>
      ({ s with nextP := p + 1, trace := s.trace ++ [Ev.invoke u, Ev.resolveP p] }, p)
    | some err =>
      ({ s with nextP := p + 1, trace := s.trace ++ [Ev.invoke u, Ev.rejectP p err] }, p)
  | none =>
    ({ s with nextP := p + 1, listeners := s.listeners ++ [Listener.aliasL e] }, p)

/-- Models `SegmentClient.track`.  The once-listener is registered
unconditionally, whether or not the client handle is present — faithful to
the missing `else` in the source. -/
def track (t : TrackEvent) (s : SegmentState) : SegmentState × Nat :=
  let p := s.nextP
  let s1 :=
    match s.client with
    | some h =>
      let u := UCall.track t.event t.properties
        (mergedOpts t.options (s.options.anonymizeIp.getD false))
      match h.throwsTrack with
      | none =>
        { s with nextP := p + 1, trace := s.trace ++ [Ev.invoke u, Ev.resolveP p] }
      | some err =>
        { s with nextP := p + 1, trace := s.trace ++ [Ev.invoke u, Ev.rejectP p err] }
    | none => { s with nextP := p + 1 }
  ({ s1 with listeners := s1.listeners ++ [Listener.trackL t] }, p)

/-- Models `SegmentClient.group`. -/
def group (e : GroupEvent) (s : SegmentState) : SegmentState × Nat :=
  let p := s.nextP
  match s.client with
  | some h =>
    let u := UCall.group e.groupId e.traits
      (mergedOpts e.options (s.options.anonymizeIp.getD false))
    match h.throwsGroup with
    | none =>
      ({ s with nextP := p + 1, trace := s.trace ++ [Ev.invoke u, Ev.resolveP p] }, p)
    | some err =>
      ({ s with nextP := p + 1, trace := s.trace ++ [Ev.invoke u, Ev.rejectP p err] }, p)
  | none =>
    ({ s with nextP := p + 1, listeners := s.listeners ++ [Listener.groupL e] }, p)

/-- Models `SegmentClient.ready`.  The deferred path drops the original
resolver (`this.ready(callback)` with no resolve). -/
def ready (s : SegmentState) : SegmentState × Nat :=
  let p := s.nextP
  match s.client with
  | some _ =>
    ({ s with nextP := p + 1, trace := s.trace ++ [Ev.invoke UCall.ready, Ev.resolveP p] }, p)
  | none =>
    ({ s with nextP := p + 1, listeners := s.listeners ++ [Listener.readyL] }, p)

/-- Models `SegmentClient.on` (returns void, no promise). -/
def onM (m : EventType) (s : SegmentState) : SegmentState :=
  match s.client with
  | some _ => { s with trace := s.trace ++ [Ev.invoke (UCall.onU m)] }
  | none => { s with listeners := s.listeners ++ [Listener.onL m] }

/-- Models `SegmentClient.setAnonymousId`.  On the handle-present path the
underlying call is made but `resolve` is never invoked; on the deferred path
the listener re-invokes and then resolves the original promise. -/
def setAnonymousId (id : String) (s : SegmentState) : SegmentState × Nat :=
  let p := s.nextP
  match s.client with
  | some _ =>
    ({ s with nextP := p + 1, trace := s.trace ++ [Ev.invoke (UCall.setAnonymousId id)] }, p)
  | none =>
    ({ s with nextP := p + 1, listeners := s.listeners ++ [Listener.setAnonL id p] }, p)

end SegmentClient

/-- Promise ids resolved in a trace. -/
def resolvedIds (t : List Ev) : List Nat :=
  t.filterMap fun e =>
    match e with
    | Ev.resolveP p => some p
    | _ => none

/-- Promise ids rejected in a trace, paired with the error. -/
def rejectedIds (t : List Ev) : List (Nat × String) :=
  t.filterMap fun e =>
    match e with
    | Ev.rejectP p err => some (p, err)
    | _ => none

/-- Underlying invocations recorded in a trace, in order. -/
def invokedCalls (t : List Ev) : List UCall :=
  t.filterMap fun e =>
    match e with
    | Ev.invoke c => some c
    | _ => none

namespace SegmentClient

/-- Run one once-listener (the body of the closure passed to
`emitter.once('initialize', ...)` for each deferred call). -/
def runListener (l : Listener) (s : SegmentState) : SegmentState :=
  match l with
  | Listener.pageL e p =>
    let r := page e s
    if r.2 ∈ resolvedIds r.1.trace then
      { r.1 with trace := r.1.trace ++ [Ev.resolveP p] }
    else r.1
  | Listener.identifyL e => (identify e s).1
  | Listener.aliasL e => (aliasM e s).1
  | Listener.trackL t => (track t s).1
  | Listener.groupL e => (group e s).1
  | Listener.readyL => (ready s).1
  | Listener.onL m => onM m s
  | Listener.setAnonL id p =>
    let s1 := (setAnonymousId id s).1
    { s1 with trace := s1.trace ++ [Ev.resolveP p] }

/-- Run a snapshot of once-listeners in registration order. -/
def runListeners : List Listener → SegmentState → SegmentState
  | [], s => s
  | l :: ls, s => runListeners ls (runListener l s)

/-- Models `SegmentClient.initialize`: a no-op when the client is already set;
otherwise stores the handle, applies the timeout and debug configuration,
and emits the one-time `'initialize'` event, replaying the queued listeners
in registration order. -/
def init (h : Analytics) (s : SegmentState) : SegmentState :=
  match s.client with
  | some _ => s
  | none =>
    let pending := s.listeners
    let s1 : SegmentState :=
      { s with
        client := some h
        listeners := []
        trace := s.trace ++
          [Ev.cfgTimeout (s.options.timeout.getD 200),
           Ev.cfgDebug (s.options.debug.getD false),
           Ev.emitInit] }
    runListeners pending s1

end SegmentClient

/-- The public operation alphabet of the wrapper. -/
inductive Op where
  | init (h : Analytics)
  | page (e : PageEvent)
  | identify (e : IdentifyEvent)
  | aliasO (e : AliasEvent)
  | track (t : TrackEvent)
  | group (e : GroupEvent)
  | ready
  | onO (m : EventType)
  | setAnonymousId (id : String)
deriving DecidableEq, Repr

/-- Apply one public operation to a wrapper state. -/
def applyOp (op : Op) (s : SegmentState) : SegmentState :=
  match op with
  | Op.init h => SegmentClient.init h s
  | Op.page e => (SegmentClient.page e s).1
  | Op.identify e => (SegmentClient.identify e s).1
  | Op.aliasO e => (SegmentClient.aliasM e s).1
  | Op.track t => (SegmentClient.track t s).1
  | Op.group e => (SegmentClient.group e s).1
  | Op.ready => (SegmentClient.ready s).1
  | Op.onO m => SegmentClient.onM m s
  | Op.setAnonymousId id => (SegmentClient.setAnonymousId id s).1

/-- Apply a sequence of public operations, in order. -/
def applyOps : List Op → SegmentState → SegmentState
  | [], s => s
  | op :: ops, s => applyOps ops (applyOp op s)

/-- The six queueable calls named by the replay claim. -/
inductive QCall where
  | page (e : PageEvent)
  | identify (e : IdentifyEvent)
  | aliasQ (e : AliasEvent)
  | track (t : TrackEvent)
  | group (e : GroupEvent)
  | setAnonymousId (id : String)
deriving DecidableEq, Repr

/-- View a queueable call as a public operation. -/
def QCall.toOp : QCall → Op
  | QCall.page e => Op.page e
  | QCall.identify e => Op.identify e
  | QCall.aliasQ e => Op.aliasO e
  | QCall.track t => Op.track t
  | QCall.group e => Op.group e
  | QCall.setAnonymousId id => Op.setAnonymousId id

/-- The once-listener a queueable call registers when the handle is absent,
given the promise id allocated to the call. -/
def QCall.toListener : QCall → Nat → Listener
  | QCall.page e, p => Listener.pageL e p
  | QCall.identify e, _ => Listener.identifyL e
  | QCall.aliasQ e, _ => Listener.aliasL e
  | QCall.track t, _ => Listener.trackL t
  | QCall.group e, _ => Listener.groupL e
  | QCall.setAnonymousId id, p => Listener.setAnonL id p

/-- The underlying invocation a queueable call produces once replayed, for a
wrapper built with the given construction options. -/
def QCall.uinvoke (c : QCall) (opts : Options) : UCall :=
  match c with
  | QCall.page e =>
    UCall.page e.category e.name e.properties
      (mergedOpts e.options (opts.anonymizeIp.getD false))
  | QCall.identify e =>
    UCall.identify e.userId e.traits
      (mergedOpts e.options (opts.anonymizeIp.getD false))
  | QCall.aliasQ e => UCall.aliasU e.userId e.previousId e.options
  | QCall.track t =>
    UCall.track t.event t.properties
      (mergedOpts t.options (opts.anonymizeIp.getD false))
  | QCall.group e =>
    UCall.group e.groupId e.traits
      (mergedOpts e.options (opts.anonymizeIp.getD false))
  | QCall.setAnonymousId id => UCall.setAnonymousId id

/-- The single underlying invocation a listener produces when it fires with
the handle present. -/
def listenerInvoke (opts : Options) : Listener → UCall
  | Listener.pageL e _ =>
    UCall.page e.category e.name e.properties
      (mergedOpts e.options (opts.anonymizeIp.getD false))
  | Listener.identifyL e =>
    UCall.identify e.userId e.traits
      (mergedOpts e.options (opts.anonymizeIp.getD false))
  | Listener.aliasL e => UCall.aliasU e.userId e.previousId e.options
  | Listener.trackL t =>
    UCall.track t.event t.properties
      (mergedOpts t.options (opts.anonymizeIp.getD false))
  | Listener.groupL e =>
    UCall.group e.groupId e.traits
      (mergedOpts e.options (opts.anonymizeIp.getD false))
  | Listener.readyL => UCall.ready
  | Listener.onL m => UCall.onU m
  | Listener.setAnonL id _ => UCall.setAnonymousId id

/-- The listener list a block of queueable calls registers, starting from a
given promise counter. -/
def queuedListeners : List QCall → Nat → List Listener
  | [], _ => []
  | c :: cs, n => c.toListener n :: queuedListeners cs (n + 1)

/-- Models `useSegment` (src/lib/provider.tsx): reading the ambient context;
an absent provider value is an immediate synchronous error. -/
def useSegment (client : Option SegmentState) : Except String SegmentState :=
  match client with
  | none =>
    Except.error
      "The useSegment hook needs <SegmentProvider> to be present higher in the React tree."
  | some c => Except.ok c

end ReactSegmentHooks

namespace ReactSegmentHooks

/-! Concrete fixtures used by witnesses and counterexamples. -/

/-- A wrapper configuration with every optional field left unset. -/
def opts0 : Options := { apiKey := "key" }

/-- A wrapper configuration with `anonymizeIp: true`. -/
def optsAnon : Options := { apiKey := "key", anonymizeIp := some true }

/-- A live handle whose underlying methods never throw. -/
def h0 : Analytics := {}

/-- A handle whose five event methods all throw synchronously. -/
def hBoom : Analytics :=
  { throwsPage := some "boom", throwsIdentify := some "boom",
    throwsAlias := some "boom", throwsTrack := some "boom",
    throwsGroup := some "boom" }

/-- A wrapper that has already been initialized with `h0`. -/
def sReady : SegmentState := SegmentClient.init h0 (initialState opts0)

/-! Basic trace-accessor lemmas. -/

theorem invokedCalls_append (t u : List Ev) :
    invokedCalls (t ++ u) = invokedCalls t ++ invokedCalls u := by
  simp [invokedCalls, List.filterMap_append]

theorem resolvedIds_append (t u : List Ev) :
    resolvedIds (t ++ u) = resolvedIds t ++ resolvedIds u := by
  simp [resolvedIds, List.filterMap_append]

namespace SegmentClient

/-! Preservation of the client handle and of the construction options by every
method body. -/

theorem page_pres (e : PageEvent) (s : SegmentState) :
    ((page e s).1).client = s.client ∧ ((page e s).1).options = s.options := by
  unfold page
  rcases hc : s.client with _ | h
  · simp
  · rcases ht : h.throwsPage with _ | err <;> simp [ht]

theorem identify_pres (e : IdentifyEvent) (s : SegmentState) :
    ((identify e s).1).client = s.client ∧ ((identify e s).1).options = s.options := by
  unfold identify
  rcases hc : s.client with _ | h
  · simp
  · rcases ht : h.throwsIdentify with _ | err <;> simp [ht]

theorem aliasM_pres (e : AliasEvent) (s : SegmentState) :
    ((aliasM e s).1).client = s.client ∧ ((aliasM e s).1).options = s.options := by
  unfold aliasM
  rcases hc : s.client with _ | h
  · simp
  · rcases ht : h.throwsAlias with _ | err <;> simp [ht]

theorem track_pres (t : TrackEvent) (s : SegmentState) :
    ((track t s).1).client = s.client ∧ ((track t s).1).options = s.options := by
  unfold track
  rcases hc : s.client with _ | h
  · simp
  · rcases ht : h.throwsTrack with _ | err <;> simp [ht]

theorem group_pres (e : GroupEvent) (s : SegmentState) :
    ((group e s).1).client = s.client ∧ ((group e s).1).options = s.options := by
  unfold group
  rcases hc : s.client with _ | h
  · simp
  · rcases ht : h.throwsGroup with _ | err <;> simp [ht]

theorem ready_pres (s : SegmentState) :
    ((ready s).1).client = s.client ∧ ((ready s).1).options = s.options := by
  unfold ready
  rcases hc : s.client with _ | h <;> simp

theorem onM_pres (m : EventType) (s : SegmentState) :
    (onM m s).client = s.client ∧ (onM m s).options = s.options := by
  unfold onM
  rcases hc : s.client with _ | h <;> simp

theorem setAnonymousId_pres (id : String) (s : SegmentState) :
    ((setAnonymousId id s).1).client = s.client ∧
      ((setAnonymousId id s).1).options = s.options := by
  unfold setAnonymousId
  rcases hc : s.client with _ | h <;> simp

theorem runListener_pres (l : Listener) (s : SegmentState) :
    (runListener l s).client = s.client ∧ (runListener l s).options = s.options := by
  cases l with
  | pageL e p =>
    dsimp only [runListener]
    split
    · exact ⟨(page_pres e s).1, (page_pres e s).2⟩
    · exact page_pres e s
  | identifyL e => exact identify_pres e s
  | aliasL e => exact aliasM_pres e s
  | trackL t => exact track_pres t s
  | groupL e => exact group_pres e s
  | readyL => exact ready_pres s
  | onL m => exact onM_pres m s
  | setAnonL id p =>
    dsimp only [runListener]
    exact ⟨(setAnonymousId_pres id s).1, (setAnonymousId_pres id s).2⟩

theorem runListeners_pres (L : List Listener) (s : SegmentState) :
    (runListeners L s).client = s.client ∧ (runListeners L s).options = s.options := by
  induction L generalizing s with
  | nil => exact ⟨rfl, rfl⟩
  | cons l ls ih =>
    have h1 := runListener_pres l s
    have h2 := ih (runListener l s)
    exact ⟨by rw [runListeners, h2.1, h1.1], by rw [runListeners, h2.2, h1.2]⟩

theorem init_of_some (h h' : Analytics) (s : SegmentState) (hs : s.client = some h') :
    init h s = s := by
  unfold init
  rw [hs]

theorem init_client (h : Analytics) (s : SegmentState) (hs : s.client = none) :
    (init h s).client = some h := by
  unfold init
  rw [hs]
  exact (runListeners_pres _ _).1

theorem init_options (h : Analytics) (s : SegmentState) :
    (init h s).options = s.options := by
  unfold init
  rcases hs : s.client with _ | h'
  · exact (runListeners_pres _ _).2
  · rfl

end SegmentClient

/-- Claim C7 (helper): every public operation preserves a present handle. -/
theorem applyOp_client_some (op : Op) (s : SegmentState) (h : Analytics)
    (hs : s.client = some h) : (applyOp op s).client = some h := by
  cases op with
  | init h' => rw [applyOp, SegmentClient.init_of_some h' h s hs]; exact hs
  | page e => rw [applyOp, (SegmentClient.page_pres e s).1]; exact hs
  | identify e => rw [applyOp, (SegmentClient.identify_pres e s).1]; exact hs
  | aliasO e => rw [applyOp, (SegmentClient.aliasM_pres e s).1]; exact hs
  | track t => rw [applyOp, (SegmentClient.track_pres t s).1]; exact hs
  | group e => rw [applyOp, (SegmentClient.group_pres e s).1]; exact hs
  | ready => rw [applyOp, (SegmentClient.ready_pres s).1]; exact hs
  | onO m => rw [applyOp, (SegmentClient.onM_pres m s).1]; exact hs
  | setAnonymousId id => rw [applyOp, (SegmentClient.setAnonymousId_pres id s).1]; exact hs

end ReactSegmentHooks

namespace ReactSegmentHooks

theorem applyOps_client_some (ops : List Op) (s : SegmentState) (h : Analytics)
    (hs : s.client = some h) : (applyOps ops s).client = some h := by
  induction ops generalizing s with
  | nil => exact hs
  | cons op ops ih => exact ih (applyOp op s) (applyOp_client_some op s h hs)

/-- Claim C7: the client handle reference transitions monotonically from
absent to present — once it holds a handle, every sequence of public
operations of the wrapper (`initialize`, the five event methods, `ready`,
`on`, `setAnonymousId`) leaves it holding that same handle. -/
theorem handle_present_invariant (ops : List Op) (s : SegmentState) (h : Analytics)
    (hs : s.client = some h) : (applyOps ops s).client = some h := by
  induction ops generalizing s with
  | nil => exact hs
  | cons op ops ih => exact ih (applyOp op s) (applyOp_client_some op s h hs)

/-- Witness for C7: a concrete initialized wrapper keeps its handle across a
concrete sequence of further operations. -/
theorem handle_present_invariant_w :
    sReady.client = some h0 ∧
      (applyOps [Op.track { event := "T" }, Op.init hBoom, Op.ready,
        Op.setAnonymousId "x"] sReady).client = some h0 :=
  ⟨by decide,
   handle_present_invariant
     [Op.track { event := "T" }, Op.init hBoom, Op.ready, Op.setAnonymousId "x"]
     sReady h0 (by decide)⟩

/-- Claim C8: `useSegment` with no provider ancestor (context value
undefined) raises an error immediately and synchronously instead of returning
a client; with a provider it returns the bound client. -/
theorem useSegment_without_provider :
    useSegment none =
      Except.error
        "The useSegment hook needs <SegmentProvider> to be present higher in the React tree." ∧
      ∀ c : SegmentState, useSegment (some c) = Except.ok c :=
  ⟨rfl, fun _ => rfl⟩

/-! Event counters used by the idempotence claim. -/

/-- Recognizes the application of the `timeout` configuration value. -/
def isCfgTimeout : Ev → Bool := fun e =>
  match e with
  | Ev.cfgTimeout _ => true
  | _ => false

/-- Recognizes the application of the `debug` configuration value. -/
def isCfgDebug : Ev → Bool := fun e =>
  match e with
  | Ev.cfgDebug _ => true
  | _ => false

/-- Recognizes the emission of the one-time ready signal. -/
def isEmitInit : Ev → Bool := fun e =>
  match e with
  | Ev.emitInit => true
  | _ => false

/-- A predicate on events that ignores invocations, resolutions and
rejections — i.e. everything a replayed listener can append. -/
def Quiet (f : Ev → Bool) : Prop :=
  (∀ u, f (Ev.invoke u) = false) ∧ (∀ p, f (Ev.resolveP p) = false) ∧
    (∀ p err, f (Ev.rejectP p err) = false)

theorem isCfgTimeout_quiet : Quiet isCfgTimeout :=
  ⟨fun _ => rfl, fun _ => rfl, fun _ _ => rfl⟩

theorem isCfgDebug_quiet : Quiet isCfgDebug :=
  ⟨fun _ => rfl, fun _ => rfl, fun _ _ => rfl⟩

theorem isEmitInit_quiet : Quiet isEmitInit :=
  ⟨fun _ => rfl, fun _ => rfl, fun _ _ => rfl⟩

namespace SegmentClient

theorem page_countP (f : Ev → Bool) (hq : Quiet f) (e : PageEvent) (s : SegmentState) :
    List.countP f ((page e s).1).trace = List.countP f s.trace := by
  unfold page
  rcases hc : s.client with _ | h
  · simp
  · rcases ht : h.throwsPage with _ | err <;>
      simp [ht, List.countP_append, List.countP_cons, hq.1, hq.2.1, hq.2.2]

theorem identify_countP (f : Ev → Bool) (hq : Quiet f) (e : IdentifyEvent) (s : SegmentState) :
    List.countP f ((identify e s).1).trace = List.countP f s.trace := by
  unfold identify
  rcases hc : s.client with _ | h
  · simp
  · rcases ht : h.throwsIdentify with _ | err <;>
      simp [ht, List.countP_append, List.countP_cons, hq.1, hq.2.1, hq.2.2]

theorem aliasM_countP (f : Ev → Bool) (hq : Quiet f) (e : AliasEvent) (s : SegmentState) :
    List.countP f ((aliasM e s).1).trace = List.countP f s.trace := by
  unfold aliasM
  rcases hc : s.client with _ | h
  · simp
  · rcases ht : h.throwsAlias with _ | err <;>
      simp [ht, List.countP_append, List.countP_cons, hq.1, hq.2.1, hq.2.2]

theorem track_countP (f : Ev → Bool) (hq : Quiet f) (t : TrackEvent) (s : SegmentState) :
    List.countP f ((track t s).1).trace = List.countP f s.trace := by
  unfold track
  rcases hc : s.client with _ | h
  · simp
  · rcases ht : h.throwsTrack with _ | err <;>
      simp [ht, List.countP_append, List.countP_cons, hq.1, hq.2.1, hq.2.2]

theorem group_countP (f : Ev → Bool) (hq : Quiet f) (e : GroupEvent) (s : SegmentState) :
    List.countP f ((group e s).1).trace = List.countP f s.trace := by
  unfold group
  rcases hc : s.client with _ | h
  · simp
  · rcases ht : h.throwsGroup with _ | err <;>
      simp [ht, List.countP_append, List.countP_cons, hq.1, hq.2.1, hq.2.2]

theorem ready_countP (f : Ev → Bool) (hq : Quiet f) (s : SegmentState) :
    List.countP f ((ready s).1).trace = List.countP f s.trace := by
  unfold ready
  rcases hc : s.client with _ | h <;>
    simp [List.countP_append, List.countP_cons, hq.1, hq.2.1, hq.2.2]

theorem onM_countP (f : Ev → Bool) (hq : Quiet f) (m : EventType) (s : SegmentState) :
    List.countP f (onM m s).trace = List.countP f s.trace := by
  unfold onM
  rcases hc : s.client with _ | h <;>
    simp [List.countP_append, List.countP_cons, hq.1, hq.2.1, hq.2.2]

theorem setAnonymousId_countP (f : Ev → Bool) (hq : Quiet f) (id : String) (s : SegmentState) :
    List.countP f ((setAnonymousId id s).1).trace = List.countP f s.trace := by
  unfold setAnonymousId
  rcases hc : s.client with _ | h <;>
    simp [List.countP_append, List.countP_cons, hq.1, hq.2.1, hq.2.2]

theorem runListener_countP (f : Ev → Bool) (hq : Quiet f) (l : Listener) (s : SegmentState) :
    List.countP f (runListener l s).trace = List.countP f s.trace := by
  cases l with
  | pageL e p =>
    dsimp only [runListener]
    split
    · simp [List.countP_append, List.countP_cons, hq.2.1, page_countP f hq e s]
    · exact page_countP f hq e s
  | identifyL e => exact identify_countP f hq e s
  | aliasL e => exact aliasM_countP f hq e s
  | trackL t => exact track_countP f hq t s
  | groupL e => exact group_countP f hq e s
  | readyL => exact ready_countP f hq s
  | onL m => exact onM_countP f hq m s
  | setAnonL id p =>
    dsimp only [runListener]
    simp [List.countP_append, List.countP_cons, hq.2.1,
      setAnonymousId_countP f hq id s]

theorem runListeners_countP (f : Ev → Bool) (hq : Quiet f) (L : List Listener)
    (s : SegmentState) :
    List.countP f (runListeners L s).trace = List.countP f s.trace := by
  induction L generalizing s with
  | nil => rfl
  | cons l ls ih =>
    rw [runListeners, ih (runListener l s), runListener_countP f hq l s]

end SegmentClient

end ReactSegmentHooks

namespace ReactSegmentHooks

/-- Claim C2: `initialize` is idempotent.  For a wrapper whose handle is
absent, the first `initialize` stores that handle; a second `initialize` with
any handle is a no-op on the whole state, and the timeout configuration, the
debug configuration and the one-time ready emission each happen exactly once
across the two calls. -/
theorem init_idempotent (s : SegmentState) (h1 h2 : Analytics) (hs : s.client = none) :
    SegmentClient.init h2 (SegmentClient.init h1 s) = SegmentClient.init h1 s ∧
    (SegmentClient.init h1 s).client = some h1 ∧
    List.countP isCfgTimeout (SegmentClient.init h1 s).trace
      = List.countP isCfgTimeout s.trace + 1 ∧
    List.countP isCfgDebug (SegmentClient.init h1 s).trace
      = List.countP isCfgDebug s.trace + 1 ∧
    List.countP isEmitInit (SegmentClient.init h1 s).trace
      = List.countP isEmitInit s.trace + 1 := by
  have hcl := SegmentClient.init_client h1 s hs
  refine ⟨SegmentClient.init_of_some h2 h1 _ hcl, hcl, ?_, ?_, ?_⟩
  · simp only [SegmentClient.init, hs]
    rw [SegmentClient.runListeners_countP _ isCfgTimeout_quiet]
    simp [List.countP_append, List.countP_cons, isCfgTimeout]
  · simp only [SegmentClient.init, hs]
    rw [SegmentClient.runListeners_countP _ isCfgDebug_quiet]
    simp [List.countP_append, List.countP_cons, isCfgDebug]
  · simp only [SegmentClient.init, hs]
    rw [SegmentClient.runListeners_countP _ isEmitInit_quiet]
    simp [List.countP_append, List.countP_cons, isEmitInit]

/-- Witness for C2 at a concrete wrapper with a queued track call. -/
theorem init_idempotent_w :
    ((SegmentClient.track { event := "T" } (initialState opts0)).1.client = none) ∧
      SegmentClient.init hBoom
          (SegmentClient.init h0 (SegmentClient.track { event := "T" } (initialState opts0)).1)
        = SegmentClient.init h0 (SegmentClient.track { event := "T" } (initialState opts0)).1 ∧
      List.countP isEmitInit
          (SegmentClient.init h0 (SegmentClient.track { event := "T" } (initialState opts0)).1).trace
        = List.countP isEmitInit (SegmentClient.track { event := "T" } (initialState opts0)).1.trace + 1 :=
  ⟨by decide,
   (init_idempotent (SegmentClient.track { event := "T" } (initialState opts0)).1 h0 hBoom
      (by decide)).1,
   (init_idempotent (SegmentClient.track { event := "T" } (initialState opts0)).1 h0 hBoom
      (by decide)).2.2.2.2⟩

/-! Machinery for the queue-replay claim. -/

theorem applyQ_absent (c : QCall) (s : SegmentState) (hs : s.client = none) :
    applyOp c.toOp s =
      { s with listeners := s.listeners ++ [c.toListener s.nextP],
               nextP := s.nextP + 1 } := by
  cases c <;>
    simp only [QCall.toOp, applyOp, SegmentClient.page, SegmentClient.identify,
      SegmentClient.aliasM, SegmentClient.track, SegmentClient.group,
      SegmentClient.setAnonymousId, hs, QCall.toListener]

theorem applyOps_queued (calls : List QCall) (s : SegmentState) (hs : s.client = none) :
    applyOps (calls.map QCall.toOp) s =
      { s with listeners := s.listeners ++ queuedListeners calls s.nextP,
               nextP := s.nextP + calls.length } := by
  induction calls generalizing s with
  | nil => simp [applyOps, queuedListeners]
  | cons c cs ih =>
    rw [List.map_cons, applyOps, applyQ_absent c s hs]
    rw [ih { s with listeners := s.listeners ++ [c.toListener s.nextP],
                    nextP := s.nextP + 1 } hs]
    simp only [queuedListeners, List.append_assoc, List.singleton_append,
      List.length_cons]
    have harith : s.nextP + 1 + cs.length = s.nextP + (cs.length + 1) := by omega
    rw [harith]

end ReactSegmentHooks

namespace ReactSegmentHooks

namespace SegmentClient

/-! Invocations appended by each method when the handle is present. -/

theorem page_invokes (e : PageEvent) (s : SegmentState) (h : Analytics)
    (hs : s.client = some h) :
    invokedCalls ((page e s).1).trace = invokedCalls s.trace ++
      [UCall.page e.category e.name e.properties
        (mergedOpts e.options (s.options.anonymizeIp.getD false))] := by
  unfold page
  rcases ht : h.throwsPage with _ | err <;>
    simp [hs, ht, invokedCalls, List.filterMap_append]

theorem identify_invokes (e : IdentifyEvent) (s : SegmentState) (h : Analytics)
    (hs : s.client = some h) :
    invokedCalls ((identify e s).1).trace = invokedCalls s.trace ++
      [UCall.identify e.userId e.traits
        (mergedOpts e.options (s.options.anonymizeIp.getD false))] := by
  unfold identify
  rcases ht : h.throwsIdentify with _ | err <;>
    simp [hs, ht, invokedCalls, List.filterMap_append]

theorem aliasM_invokes (e : AliasEvent) (s : SegmentState) (h : Analytics)
    (hs : s.client = some h) :
    invokedCalls ((aliasM e s).1).trace = invokedCalls s.trace ++
      [UCall.aliasU e.userId e.previousId e.options] := by
  unfold aliasM
  rcases ht : h.throwsAlias with _ | err <;>
    simp [hs, ht, invokedCalls, List.filterMap_append]

theorem track_invokes (t : TrackEvent) (s : SegmentState) (h : Analytics)
    (hs : s.client = some h) :
    invokedCalls ((track t s).1).trace = invokedCalls s.trace ++
      [UCall.track t.event t.properties
        (mergedOpts t.options (s.options.anonymizeIp.getD false))] := by
  unfold track
  rcases ht : h.throwsTrack with _ | err <;>
    simp [hs, ht, invokedCalls, List.filterMap_append]

theorem group_invokes (e : GroupEvent) (s : SegmentState) (h : Analytics)
    (hs : s.client = some h) :
    invokedCalls ((group e s).1).trace = invokedCalls s.trace ++
      [UCall.group e.groupId e.traits
        (mergedOpts e.options (s.options.anonymizeIp.getD false))] := by
  unfold group
  rcases ht : h.throwsGroup with _ | err <;>
    simp [hs, ht, invokedCalls, List.filterMap_append]

theorem ready_invokes (s : SegmentState) (h : Analytics) (hs : s.client = some h) :
    invokedCalls ((ready s).1).trace = invokedCalls s.trace ++ [UCall.ready] := by
  unfold ready
  simp [hs, invokedCalls, List.filterMap_append]

theorem onM_invokes (m : EventType) (s : SegmentState) (h : Analytics)
    (hs : s.client = some h) :
    invokedCalls (onM m s).trace = invokedCalls s.trace ++ [UCall.onU m] := by
  unfold onM
  simp [hs, invokedCalls, List.filterMap_append]

theorem setAnonymousId_invokes (id : String) (s : SegmentState) (h : Analytics)
    (hs : s.client = some h) :
    invokedCalls ((setAnonymousId id s).1).trace
      = invokedCalls s.trace ++ [UCall.setAnonymousId id] := by
  unfold setAnonymousId
  simp [hs, invokedCalls, List.filterMap_append]

/-- When the handle is present (i.e. during replay) every listener invocation
appends exactly its single underlying call. -/
theorem runListener_invokes (l : Listener) (s : SegmentState) (h : Analytics)
    (hs : s.client = some h) :
    invokedCalls (runListener l s).trace
      = invokedCalls s.trace ++ [listenerInvoke s.options l] := by
  cases l with
  | pageL e p =>
    dsimp only [runListener]
    split
    · rw [invokedCalls_append, page_invokes e s h hs]
      simp [invokedCalls, listenerInvoke]
    · rw [page_invokes e s h hs]; rfl
  | identifyL e => dsimp only [runListener]; rw [identify_invokes e s h hs]; rfl
  | aliasL e => dsimp only [runListener]; rw [aliasM_invokes e s h hs]; rfl
  | trackL t => dsimp only [runListener]; rw [track_invokes t s h hs]; rfl
  | groupL e => dsimp only [runListener]; rw [group_invokes e s h hs]; rfl
  | readyL => dsimp only [runListener]; rw [ready_invokes s h hs]; rfl
  | onL m => dsimp only [runListener]; rw [onM_invokes m s h hs]; rfl
  | setAnonL id p =>
    dsimp only [runListener]
    rw [invokedCalls_append, setAnonymousId_invokes id s h hs]
    simp [invokedCalls, listenerInvoke]

/-- Replaying a snapshot of listeners with the handle present appends exactly
the list of their underlying invocations, in registration order. -/
theorem runListeners_invokes (L : List Listener) (s : SegmentState) (h : Analytics)
    (hs : s.client = some h) :
    invokedCalls (runListeners L s).trace
      = invokedCalls s.trace ++ L.map (listenerInvoke s.options) := by
  induction L generalizing s with
  | nil => simp [runListeners]
  | cons l ls ih =>
    have hs' : (runListener l s).client = some h := by
      rw [(runListener_pres l s).1]; exact hs
    rw [runListeners, ih (runListener l s) hs', (runListener_pres l s).2,
      runListener_invokes l s h hs]
    simp [List.append_assoc]

theorem queuedListeners_map (calls : List QCall) (opts : Options) (n : Nat) :
    (queuedListeners calls n).map (listenerInvoke opts)
      = calls.map (fun c => QCall.uinvoke c opts) := by
  induction calls generalizing n with
  | nil => rfl
  | cons c cs ih =>
    rw [queuedListeners, List.map_cons, List.map_cons, ih]
    cases c <;> rfl

end SegmentClient

/-- Claim C1: for every sequence of page / identify / alias / track / group /
setAnonymousId calls issued while the client handle is absent, followed by a
single `initialize` with a live handle: no underlying invocation happens
before `initialize`, and afterwards the underlying invocations are exactly
the queued calls, each exactly once, in the order they were originally issued
(which in particular preserves the per-method order). -/
theorem queued_calls_replay_once (opts : Options) (calls : List QCall) (h : Analytics) :
    invokedCalls (applyOps (calls.map QCall.toOp) (initialState opts)).trace = [] ∧
    invokedCalls
        (SegmentClient.init h (applyOps (calls.map QCall.toOp) (initialState opts))).trace
      = calls.map (fun c => QCall.uinvoke c opts) := by
  have hq := applyOps_queued calls (initialState opts) rfl
  constructor
  · rw [hq]
    rfl
  · rw [hq]
    simp only [SegmentClient.init, initialState]
    rw [SegmentClient.runListeners_invokes _ _ h rfl]
    simp [invokedCalls, SegmentClient.queuedListeners_map]

end ReactSegmentHooks

namespace ReactSegmentHooks

/-- The context object contained in the options passed to an underlying
invocation (for `alias` the options may be absent altogether). -/
def passedContext : UCall → Option Ctx
  | UCall.page _ _ _ o => o.context
  | UCall.identify _ _ o => o.context
  | UCall.aliasU _ _ o => o.bind (fun x => x.context)
  | UCall.track _ _ o => o.context
  | UCall.group _ _ o => o.context
  | _ => none

theorem mergedOpts_context (o : Option SegmentOpts) (b : Bool) :
    (mergedOpts o b).context
      = some (Ctx.injected (if b then some "0.0.0.0" else none)) := by
  cases o <;> rfl

/-- Counterexample to claim C3 as stated: with `anonymizeIp: true` and the
handle present, an `alias` call passes the caller options verbatim — here no
options at all — so its underlying invocation carries no context object and
in particular no `ip: "0.0.0.0"`. -/
theorem anonymizeIp_alias_cex :
    invokedCalls ((SegmentClient.aliasM { userId := "u" }
        (SegmentClient.init h0 (initialState optsAnon))).1).trace
      = [UCall.aliasU "u" none none] ∧
    passedContext (UCall.aliasU "u" none none) = none := by
  decide

/-- Claim C3 (amended): for `page`, `identify`, `track` and `group` — but not
`alias` — every underlying invocation passes an options object whose context
is the wrapper-built object carrying `ip: "0.0.0.0"` when `anonymizeIp` is
true and an unset ip otherwise; `alias` forwards the caller options
unchanged, with no injected context. -/
theorem anonymizeIp_context_injected (s : SegmentState) (h : Analytics)
    (hs : s.client = some h) :
    (∀ e : PageEvent,
      invokedCalls ((SegmentClient.page e s).1).trace = invokedCalls s.trace ++
        [UCall.page e.category e.name e.properties
          (mergedOpts e.options (s.options.anonymizeIp.getD false))] ∧
      (mergedOpts e.options (s.options.anonymizeIp.getD false)).context
        = some (Ctx.injected
            (if s.options.anonymizeIp.getD false then some "0.0.0.0" else none))) ∧
    (∀ e : IdentifyEvent,
      invokedCalls ((SegmentClient.identify e s).1).trace = invokedCalls s.trace ++
        [UCall.identify e.userId e.traits
          (mergedOpts e.options (s.options.anonymizeIp.getD false))] ∧
      (mergedOpts e.options (s.options.anonymizeIp.getD false)).context
        = some (Ctx.injected
            (if s.options.anonymizeIp.getD false then some "0.0.0.0" else none))) ∧
    (∀ t : TrackEvent,
      invokedCalls ((SegmentClient.track t s).1).trace = invokedCalls s.trace ++
        [UCall.track t.event t.properties
          (mergedOpts t.options (s.options.anonymizeIp.getD false))] ∧
      (mergedOpts t.options (s.options.anonymizeIp.getD false)).context
        = some (Ctx.injected
            (if s.options.anonymizeIp.getD false then some "0.0.0.0" else none))) ∧
    (∀ e : GroupEvent,
      invokedCalls ((SegmentClient.group e s).1).trace = invokedCalls s.trace ++
        [UCall.group e.groupId e.traits
          (mergedOpts e.options (s.options.anonymizeIp.getD false))] ∧
      (mergedOpts e.options (s.options.anonymizeIp.getD false)).context
        = some (Ctx.injected
            (if s.options.anonymizeIp.getD false then some "0.0.0.0" else none))) ∧
    (∀ e : AliasEvent,
      invokedCalls ((SegmentClient.aliasM e s).1).trace
        = invokedCalls s.trace ++ [UCall.aliasU e.userId e.previousId e.options]) :=
  ⟨fun e => ⟨SegmentClient.page_invokes e s h hs, mergedOpts_context _ _⟩,
   fun e => ⟨SegmentClient.identify_invokes e s h hs, mergedOpts_context _ _⟩,
   fun t => ⟨SegmentClient.track_invokes t s h hs, mergedOpts_context _ _⟩,
   fun e => ⟨SegmentClient.group_invokes e s h hs, mergedOpts_context _ _⟩,
   fun e => SegmentClient.aliasM_invokes e s h hs⟩

/-- Witness for the amended C3: a concrete anonymize-IP wrapper injects the
sentinel ip into a page invocation. -/
theorem anonymizeIp_context_injected_w :
    (SegmentClient.init h0 (initialState optsAnon)).client = some h0 ∧
    (mergedOpts (none : Option SegmentOpts)
        ((SegmentClient.init h0 (initialState optsAnon)).options.anonymizeIp.getD false)).context
      = some (Ctx.injected
          (if (SegmentClient.init h0 (initialState optsAnon)).options.anonymizeIp.getD false
            then some "0.0.0.0" else none)) :=
  ⟨by decide,
   ((anonymizeIp_context_injected (SegmentClient.init h0 (initialState optsAnon)) h0
        (by decide)).1 ({} : PageEvent)).2⟩

/-- Claim C9: for page, identify, track and group with the handle present,
any context the caller put inside the options argument is discarded — the
options passed to the underlying client are the caller options with the
context field replaced by the wrapper-built object, whatever `anonymizeIp`
is. -/
theorem caller_context_discarded (s : SegmentState) (h : Analytics)
    (hs : s.client = some h) (o : SegmentOpts) :
    (∀ e : PageEvent, e.options = some o →
      invokedCalls ((SegmentClient.page e s).1).trace = invokedCalls s.trace ++
        [UCall.page e.category e.name e.properties
          { o with context := some (Ctx.injected
              (if s.options.anonymizeIp.getD false then some "0.0.0.0" else none)) }]) ∧
    (∀ e : IdentifyEvent, e.options = some o →
      invokedCalls ((SegmentClient.identify e s).1).trace = invokedCalls s.trace ++
        [UCall.identify e.userId e.traits
          { o with context := some (Ctx.injected
              (if s.options.anonymizeIp.getD false then some "0.0.0.0" else none)) }]) ∧
    (∀ t : TrackEvent, t.options = some o →
      invokedCalls ((SegmentClient.track t s).1).trace = invokedCalls s.trace ++
        [UCall.track t.event t.properties
          { o with context := some (Ctx.injected
              (if s.options.anonymizeIp.getD false then some "0.0.0.0" else none)) }]) ∧
    (∀ e : GroupEvent, e.options = some o →
      invokedCalls ((SegmentClient.group e s).1).trace = invokedCalls s.trace ++
        [UCall.group e.groupId e.traits
          { o with context := some (Ctx.injected
              (if s.options.anonymizeIp.getD false then some "0.0.0.0" else none)) }]) := by
  refine ⟨fun e he => ?_, fun e he => ?_, fun t ht => ?_, fun e he => ?_⟩
  · rw [SegmentClient.page_invokes e s h hs, he]; rfl
  · rw [SegmentClient.identify_invokes e s h hs, he]; rfl
  · rw [SegmentClient.track_invokes t s h hs, ht]; rfl
  · rw [SegmentClient.group_invokes e s h hs, he]; rfl

/-- Witness for C9: a caller-supplied context object is replaced by the
wrapper-built one in a concrete page invocation. -/
theorem caller_context_discarded_w :
    sReady.client = some h0 ∧
    invokedCalls ((SegmentClient.page
        { options := some { context := some (Ctx.user 7) } } sReady).1).trace
      = invokedCalls sReady.trace ++
        [UCall.page none none none
          { integrations := none, anonymousId := none,
            context := some (Ctx.injected
              (if sReady.options.anonymizeIp.getD false then some "0.0.0.0" else none)) }] :=
  ⟨by decide,
   (caller_context_discarded sReady h0 (by decide)
       { context := some (Ctx.user 7) }).1 _ rfl⟩

end ReactSegmentHooks

namespace ReactSegmentHooks

/-- Counterexample to claim C5 as stated: a `track` call made after
`initialize` does register a deferred once-listener for the ready signal
(the registration in the source is unconditional). -/
theorem track_after_init_cex :
    ((SegmentClient.track { event := "Test" } sReady).1).listeners
      ≠ sReady.listeners := by
  decide

/-- Claim C5 (amended): calling `track` after `initialize` invokes
`handle.track` immediately and synchronously and no later replay of the call
can occur — any further `initialize` is a no-op, so the spent ready signal
never fires the listener — but, contrary to the claim as stated, a (dead)
once-listener for the ready signal is still registered. -/
theorem track_after_init (t : TrackEvent) (s : SegmentState) (h : Analytics)
    (hs : s.client = some h) (hok : h.throwsTrack = none) :
    ((SegmentClient.track t s).1).trace = s.trace ++
      [Ev.invoke (UCall.track t.event t.properties
        (mergedOpts t.options (s.options.anonymizeIp.getD false))),
       Ev.resolveP s.nextP] ∧
    ((SegmentClient.track t s).1).listeners = s.listeners ++ [Listener.trackL t] ∧
    ∀ h2 : Analytics,
      SegmentClient.init h2 (SegmentClient.track t s).1 = (SegmentClient.track t s).1 := by
  refine ⟨?_, ?_, ?_⟩
  · unfold SegmentClient.track; simp [hs, hok]
  · unfold SegmentClient.track; simp [hs, hok]
  · intro h2
    apply SegmentClient.init_of_some h2 h
    rw [(SegmentClient.track_pres t s).1]; exact hs

/-- Witness for the amended C5 at a concrete initialized wrapper. -/
theorem track_after_init_w :
    sReady.client = some h0 ∧
    ((SegmentClient.track { event := "Test2" } sReady).1).trace = sReady.trace ++
      [Ev.invoke (UCall.track "Test2" none
        (mergedOpts none (sReady.options.anonymizeIp.getD false))),
       Ev.resolveP sReady.nextP] ∧
    SegmentClient.init hBoom (SegmentClient.track { event := "Test2" } sReady).1
      = (SegmentClient.track { event := "Test2" } sReady).1 :=
  ⟨by decide,
   (track_after_init { event := "Test2" } sReady h0 (by decide) rfl).1,
   (track_after_init { event := "Test2" } sReady h0 (by decide) rfl).2.2 hBoom⟩

/-- Claim C6: for each of the five event methods called with the handle
present, a synchronous throw from the underlying client method rejects the
promise returned to the caller with exactly that error, after exactly the one
underlying invocation attempt; the call is not retried (in particular any
further `initialize` is a no-op, so the unconditionally registered track
listener can never re-fire the call). -/
theorem underlying_throw_rejects (s : SegmentState) (h : Analytics)
    (hs : s.client = some h) :
    (∀ err, h.throwsPage = some err → ∀ e : PageEvent,
      ((SegmentClient.page e s).1).trace = s.trace ++
        [Ev.invoke (UCall.page e.category e.name e.properties
          (mergedOpts e.options (s.options.anonymizeIp.getD false))),
         Ev.rejectP s.nextP err] ∧
      (SegmentClient.page e s).2 = s.nextP ∧
      ∀ h2 : Analytics,
        SegmentClient.init h2 (SegmentClient.page e s).1 = (SegmentClient.page e s).1) ∧
    (∀ err, h.throwsIdentify = some err → ∀ e : IdentifyEvent,
      ((SegmentClient.identify e s).1).trace = s.trace ++
        [Ev.invoke (UCall.identify e.userId e.traits
          (mergedOpts e.options (s.options.anonymizeIp.getD false))),
         Ev.rejectP s.nextP err] ∧
      (SegmentClient.identify e s).2 = s.nextP ∧
      ∀ h2 : Analytics,
        SegmentClient.init h2 (SegmentClient.identify e s).1
          = (SegmentClient.identify e s).1) ∧
    (∀ err, h.throwsAlias = some err → ∀ e : AliasEvent,
      ((SegmentClient.aliasM e s).1).trace = s.trace ++
        [Ev.invoke (UCall.aliasU e.userId e.previousId e.options),
         Ev.rejectP s.nextP err] ∧
      (SegmentClient.aliasM e s).2 = s.nextP ∧
      ∀ h2 : Analytics,
        SegmentClient.init h2 (SegmentClient.aliasM e s).1
          = (SegmentClient.aliasM e s).1) ∧
    (∀ err, h.throwsTrack = some err → ∀ t : TrackEvent,
      ((SegmentClient.track t s).1).trace = s.trace ++
        [Ev.invoke (UCall.track t.event t.properties
          (mergedOpts t.options (s.options.anonymizeIp.getD false))),
         Ev.rejectP s.nextP err] ∧
      (SegmentClient.track t s).2 = s.nextP ∧
      ∀ h2 : Analytics,
        SegmentClient.init h2 (SegmentClient.track t s).1
          = (SegmentClient.track t s).1) ∧
    (∀ err, h.throwsGroup = some err → ∀ e : GroupEvent,
      ((SegmentClient.group e s).1).trace = s.trace ++
        [Ev.invoke (UCall.group e.groupId e.traits
          (mergedOpts e.options (s.options.anonymizeIp.getD false))),
         Ev.rejectP s.nextP err] ∧
      (SegmentClient.group e s).2 = s.nextP ∧
      ∀ h2 : Analytics,
        SegmentClient.init h2 (SegmentClient.group e s).1
          = (SegmentClient.group e s).1) := by
  refine ⟨fun err herr e => ⟨?_, ?_, fun h2 => ?_⟩,
          fun err herr e => ⟨?_, ?_, fun h2 => ?_⟩,
          fun err herr e => ⟨?_, ?_, fun h2 => ?_⟩,
          fun err herr t => ⟨?_, ?_, fun h2 => ?_⟩,
          fun err herr e => ⟨?_, ?_, fun h2 => ?_⟩⟩
  · unfold SegmentClient.page; simp [hs, herr]
  · unfold SegmentClient.page; simp [hs, herr]
  · exact SegmentClient.init_of_some h2 h _
      (by rw [(SegmentClient.page_pres e s).1]; exact hs)
  · unfold SegmentClient.identify; simp [hs, herr]
  · unfold SegmentClient.identify; simp [hs, herr]
  · exact SegmentClient.init_of_some h2 h _
      (by rw [(SegmentClient.identify_pres e s).1]; exact hs)
  · unfold SegmentClient.aliasM; simp [hs, herr]
  · unfold SegmentClient.aliasM; simp [hs, herr]
  · exact SegmentClient.init_of_some h2 h _
      (by rw [(SegmentClient.aliasM_pres e s).1]; exact hs)
  · unfold SegmentClient.track; simp [hs, herr]
  · unfold SegmentClient.track; simp [hs, herr]
  · exact SegmentClient.init_of_some h2 h _
      (by rw [(SegmentClient.track_pres t s).1]; exact hs)
  · unfold SegmentClient.group; simp [hs, herr]
  · unfold SegmentClient.group; simp [hs, herr]
  · exact SegmentClient.init_of_some h2 h _
      (by rw [(SegmentClient.group_pres e s).1]; exact hs)

/-- Witness for C6: a concrete wrapper initialized with an all-throwing
handle rejects a page call with the thrown error after one invocation
attempt. -/
theorem underlying_throw_rejects_w :
    (SegmentClient.init hBoom (initialState opts0)).client = some hBoom ∧
    ((SegmentClient.page {} (SegmentClient.init hBoom (initialState opts0))).1).trace
      = (SegmentClient.init hBoom (initialState opts0)).trace ++
        [Ev.invoke (UCall.page none none none
          (mergedOpts none
            ((SegmentClient.init hBoom (initialState opts0)).options.anonymizeIp.getD false))),
         Ev.rejectP (SegmentClient.init hBoom (initialState opts0)).nextP "boom"] :=
  ⟨by decide,
   (((underlying_throw_rejects (SegmentClient.init hBoom (initialState opts0)) hBoom
        (by decide)).1 "boom" rfl) {}).1⟩

end ReactSegmentHooks

namespace ReactSegmentHooks

/-- Promise ids stored inside once-listeners (only the deferred page path and
the deferred setAnonymousId path capture the original resolver). -/
def listenerPs (L : List Listener) : List Nat :=
  L.filterMap fun l =>
    match l with
    | Listener.pageL _ p => some p
    | Listener.setAnonL _ p => some p
    | _ => none

theorem listenerPs_append (L M : List Listener) :
    listenerPs (L ++ M) = listenerPs L ++ listenerPs M := by
  simp [listenerPs, List.filterMap_append]

/-- Promise `p` can never be resolved from state `s`: it is an already
allocated id, no resolve event for it has happened, and no listener stores
its resolver. -/
def PFree (p : Nat) (s : SegmentState) : Prop :=
  p < s.nextP ∧ p ∉ resolvedIds s.trace ∧ p ∉ listenerPs s.listeners

end ReactSegmentHooks

namespace ReactSegmentHooks

/-! Small computation lemmas for trace and listener bookkeeping. -/

theorem resolvedIds_pair_resolve (u : UCall) (p : Nat) :
    resolvedIds [Ev.invoke u, Ev.resolveP p] = [p] := rfl

theorem resolvedIds_pair_reject (u : UCall) (p : Nat) (err : String) :
    resolvedIds [Ev.invoke u, Ev.rejectP p err] = [] := rfl

theorem resolvedIds_single (p : Nat) : resolvedIds [Ev.resolveP p] = [p] := rfl

theorem resolvedIds_single_invoke (u : UCall) : resolvedIds [Ev.invoke u] = [] := rfl

theorem resolvedIds_cfg (ms : Nat) (b : Bool) :
    resolvedIds [Ev.cfgTimeout ms, Ev.cfgDebug b, Ev.emitInit] = [] := rfl

theorem listenerPs_pageL (e : PageEvent) (p : Nat) :
    listenerPs [Listener.pageL e p] = [p] := rfl

theorem listenerPs_setAnonL (id : String) (p : Nat) :
    listenerPs [Listener.setAnonL id p] = [p] := rfl

theorem listenerPs_identifyL (e : IdentifyEvent) : listenerPs [Listener.identifyL e] = [] := rfl

theorem listenerPs_aliasL (e : AliasEvent) : listenerPs [Listener.aliasL e] = [] := rfl

theorem listenerPs_trackL (t : TrackEvent) : listenerPs [Listener.trackL t] = [] := rfl

theorem listenerPs_groupL (e : GroupEvent) : listenerPs [Listener.groupL e] = [] := rfl

theorem listenerPs_readyL : listenerPs [Listener.readyL] = [] := rfl

theorem listenerPs_onL (m : EventType) : listenerPs [Listener.onL m] = [] := rfl

/-- Upgrading unreachability of a promise along a state step that only
resolves the freshly allocated id and only stores the freshly allocated id in
new listeners. -/
theorem pfree_transfer (p : Nat) (s s2 : SegmentState) (hf : PFree p s)
    (hn : s.nextP ≤ s2.nextP)
    (hr : ∀ q, q ∈ resolvedIds s2.trace → q ∈ resolvedIds s.trace ∨ q = s.nextP)
    (hl : ∀ q, q ∈ listenerPs s2.listeners → q ∈ listenerPs s.listeners ∨ q = s.nextP) :
    PFree p s2 := by
  obtain ⟨h1, h2, h3⟩ := hf
  refine ⟨by omega, fun hq => ?_, fun hq => ?_⟩
  · rcases hr _ hq with hh | hh
    · exact h2 hh
    · omega
  · rcases hl _ hq with hh | hh
    · exact h3 hh
    · omega

namespace SegmentClient

theorem page_step (e : PageEvent) (s : SegmentState) :
    s.nextP ≤ ((page e s).1).nextP ∧
    (∀ q, q ∈ resolvedIds ((page e s).1).trace →
      q ∈ resolvedIds s.trace ∨ q = s.nextP) ∧
    (∀ q, q ∈ listenerPs ((page e s).1).listeners →
      q ∈ listenerPs s.listeners ∨ q = s.nextP) := by
  refine ⟨?_, ?_, ?_⟩
  · unfold page
    rcases hc : s.client with _ | h
    · simp
    · rcases ht : h.throwsPage <;> simp [ht]
  · intro q hq
    unfold page at hq
    rcases hc : s.client with _ | h
    · rw [hc] at hq
      exact Or.inl hq
    · rw [hc] at hq
      dsimp only at hq
      rcases ht : h.throwsPage with _ | err <;> rw [ht] at hq <;> dsimp only at hq
      · rw [resolvedIds_append, resolvedIds_pair_resolve] at hq
        simp only [List.mem_append, List.mem_singleton] at hq
        tauto
      · rw [resolvedIds_append, resolvedIds_pair_reject] at hq
        simp only [List.append_nil] at hq
        exact Or.inl hq
  · intro q hq
    unfold page at hq
    rcases hc : s.client with _ | h
    · rw [hc] at hq
      dsimp only at hq
      rw [listenerPs_append, listenerPs_pageL] at hq
      simp only [List.mem_append, List.mem_singleton] at hq
      tauto
    · rw [hc] at hq
      dsimp only at hq
      rcases ht : h.throwsPage with _ | err <;> rw [ht] at hq <;> dsimp only at hq <;>
        exact Or.inl hq

theorem identify_step (e : IdentifyEvent) (s : SegmentState) :
    s.nextP ≤ ((identify e s).1).nextP ∧
    (∀ q, q ∈ resolvedIds ((identify e s).1).trace →
      q ∈ resolvedIds s.trace ∨ q = s.nextP) ∧
    (∀ q, q ∈ listenerPs ((identify e s).1).listeners →
      q ∈ listenerPs s.listeners ∨ q = s.nextP) := by
  refine ⟨?_, ?_, ?_⟩
  · unfold identify
    rcases hc : s.client with _ | h
    · simp
    · rcases ht : h.throwsIdentify <;> simp [ht]
  · intro q hq
    unfold identify at hq
    rcases hc : s.client with _ | h
    · rw [hc] at hq
      exact Or.inl hq
    · rw [hc] at hq
      dsimp only at hq
      rcases ht : h.throwsIdentify with _ | err <;> rw [ht] at hq <;> dsimp only at hq
      · rw [resolvedIds_append, resolvedIds_pair_resolve] at hq
        simp only [List.mem_append, List.mem_singleton] at hq
        tauto
      · rw [resolvedIds_append, resolvedIds_pair_reject] at hq
        simp only [List.append_nil] at hq
        exact Or.inl hq
  · intro q hq
    unfold identify at hq
    rcases hc : s.client with _ | h
    · rw [hc] at hq
      dsimp only at hq
      rw [listenerPs_append, listenerPs_identifyL] at hq
      simp only [List.append_nil] at hq
      exact Or.inl hq
    · rw [hc] at hq
      dsimp only at hq
      rcases ht : h.throwsIdentify with _ | err <;> rw [ht] at hq <;> dsimp only at hq <;>
        exact Or.inl hq

theorem aliasM_step (e : AliasEvent) (s : SegmentState) :
    s.nextP ≤ ((aliasM e s).1).nextP ∧
    (∀ q, q ∈ resolvedIds ((aliasM e s).1).trace →
      q ∈ resolvedIds s.trace ∨ q = s.nextP) ∧
    (∀ q, q ∈ listenerPs ((aliasM e s).1).listeners →
      q ∈ listenerPs s.listeners ∨ q = s.nextP) := by
  refine ⟨?_, ?_, ?_⟩
  · unfold aliasM
    rcases hc : s.client with _ | h
    · simp
    · rcases ht : h.throwsAlias <;> simp [ht]
  · intro q hq
    unfold aliasM at hq
    rcases hc : s.client with _ | h
    · rw [hc] at hq
      exact Or.inl hq
    · rw [hc] at hq
      dsimp only at hq
      rcases ht : h.throwsAlias with _ | err <;> rw [ht] at hq <;> dsimp only at hq
      · rw [resolvedIds_append, resolvedIds_pair_resolve] at hq
        simp only [List.mem_append, List.mem_singleton] at hq
        tauto
      · rw [resolvedIds_append, resolvedIds_pair_reject] at hq
        simp only [List.append_nil] at hq
        exact Or.inl hq
  · intro q hq
    unfold aliasM at hq
    rcases hc : s.client with _ | h
    · rw [hc] at hq
      dsimp only at hq
      rw [listenerPs_append, listenerPs_aliasL] at hq
      simp only [List.append_nil] at hq
      exact Or.inl hq
    · rw [hc] at hq
      dsimp only at hq
      rcases ht : h.throwsAlias with _ | err <;> rw [ht] at hq <;> dsimp only at hq <;>
        exact Or.inl hq

theorem track_step (t : TrackEvent) (s : SegmentState) :
    s.nextP ≤ ((track t s).1).nextP ∧
    (∀ q, q ∈ resolvedIds ((track t s).1).trace →
      q ∈ resolvedIds s.trace ∨ q = s.nextP) ∧
    (∀ q, q ∈ listenerPs ((track t s).1).listeners →
      q ∈ listenerPs s.listeners ∨ q = s.nextP) := by
  refine ⟨?_, ?_, ?_⟩
  · unfold track
    rcases hc : s.client with _ | h
    · simp
    · rcases ht : h.throwsTrack <;> simp [ht]
  · intro q hq
    unfold track at hq
    rcases hc : s.client with _ | h
    · rw [hc] at hq
      exact Or.inl hq
    · rw [hc] at hq
      dsimp only at hq
      rcases ht : h.throwsTrack with _ | err <;> rw [ht] at hq <;> dsimp only at hq
      · rw [resolvedIds_append, resolvedIds_pair_resolve] at hq
        simp only [List.mem_append, List.mem_singleton] at hq
        tauto
      · rw [resolvedIds_append, resolvedIds_pair_reject] at hq
        simp only [List.append_nil] at hq
        exact Or.inl hq
  · intro q hq
    unfold track at hq
    rcases hc : s.client with _ | h
    · rw [hc] at hq
      dsimp only at hq
      rw [listenerPs_append, listenerPs_trackL] at hq
      simp only [List.append_nil] at hq
      exact Or.inl hq
    · rw [hc] at hq
      dsimp only at hq
      rcases ht : h.throwsTrack with _ | err <;> rw [ht] at hq <;> dsimp only at hq <;>
        (rw [listenerPs_append, listenerPs_trackL] at hq;
         simp only [List.append_nil] at hq;
         exact Or.inl hq)

theorem group_step (e : GroupEvent) (s : SegmentState) :
    s.nextP ≤ ((group e s).1).nextP ∧
    (∀ q, q ∈ resolvedIds ((group e s).1).trace →
      q ∈ resolvedIds s.trace ∨ q = s.nextP) ∧
    (∀ q, q ∈ listenerPs ((group e s).1).listeners →
      q ∈ listenerPs s.listeners ∨ q = s.nextP) := by
  refine ⟨?_, ?_, ?_⟩
  · unfold group
    rcases hc : s.client with _ | h
    · simp
    · rcases ht : h.throwsGroup <;> simp [ht]
  · intro q hq
    unfold group at hq
    rcases hc : s.client with _ | h
    · rw [hc] at hq
      exact Or.inl hq
    · rw [hc] at hq
      dsimp only at hq
      rcases ht : h.throwsGroup with _ | err <;> rw [ht] at hq <;> dsimp only at hq
      · rw [resolvedIds_append, resolvedIds_pair_resolve] at hq
        simp only [List.mem_append, List.mem_singleton] at hq
        tauto
      · rw [resolvedIds_append, resolvedIds_pair_reject] at hq
        simp only [List.append_nil] at hq
        exact Or.inl hq
  · intro q hq
    unfold group at hq
    rcases hc : s.client with _ | h
    · rw [hc] at hq
      dsimp only at hq
      rw [listenerPs_append, listenerPs_groupL] at hq
      simp only [List.append_nil] at hq
      exact Or.inl hq
    · rw [hc] at hq
      dsimp only at hq
      rcases ht : h.throwsGroup with _ | err <;> rw [ht] at hq <;> dsimp only at hq <;>
        exact Or.inl hq

theorem ready_step (s : SegmentState) :
    s.nextP ≤ ((ready s).1).nextP ∧
    (∀ q, q ∈ resolvedIds ((ready s).1).trace →
      q ∈ resolvedIds s.trace ∨ q = s.nextP) ∧
    (∀ q, q ∈ listenerPs ((ready s).1).listeners →
      q ∈ listenerPs s.listeners ∨ q = s.nextP) := by
  refine ⟨?_, ?_, ?_⟩
  · unfold ready
    rcases hc : s.client with _ | h <;> simp
  · intro q hq
    unfold ready at hq
    rcases hc : s.client with _ | h
    · rw [hc] at hq
      exact Or.inl hq
    · rw [hc] at hq
      dsimp only at hq
      rw [resolvedIds_append, resolvedIds_pair_resolve] at hq
      simp only [List.mem_append, List.mem_singleton] at hq
      tauto
  · intro q hq
    unfold ready at hq
    rcases hc : s.client with _ | h
    · rw [hc] at hq
      dsimp only at hq
      rw [listenerPs_append, listenerPs_readyL] at hq
      simp only [List.append_nil] at hq
      exact Or.inl hq
    · rw [hc] at hq
      exact Or.inl hq

theorem onM_step (m : EventType) (s : SegmentState) :
    s.nextP ≤ (onM m s).nextP ∧
    (∀ q, q ∈ resolvedIds (onM m s).trace →
      q ∈ resolvedIds s.trace ∨ q = s.nextP) ∧
    (∀ q, q ∈ listenerPs (onM m s).listeners →
      q ∈ listenerPs s.listeners ∨ q = s.nextP) := by
  refine ⟨?_, ?_, ?_⟩
  · unfold onM
    rcases hc : s.client with _ | h <;> simp
  · intro q hq
    unfold onM at hq
    rcases hc : s.client with _ | h
    · rw [hc] at hq
      exact Or.inl hq
    · rw [hc] at hq
      dsimp only at hq
      rw [resolvedIds_append, resolvedIds_single_invoke] at hq
      simp only [List.append_nil] at hq
      exact Or.inl hq
  · intro q hq
    unfold onM at hq
    rcases hc : s.client with _ | h
    · rw [hc] at hq
      dsimp only at hq
      rw [listenerPs_append, listenerPs_onL] at hq
      simp only [List.append_nil] at hq
      exact Or.inl hq
    · rw [hc] at hq
      exact Or.inl hq

theorem setAnonymousId_step (id : String) (s : SegmentState) :
    s.nextP ≤ ((setAnonymousId id s).1).nextP ∧
    (∀ q, q ∈ resolvedIds ((setAnonymousId id s).1).trace →
      q ∈ resolvedIds s.trace ∨ q = s.nextP) ∧
    (∀ q, q ∈ listenerPs ((setAnonymousId id s).1).listeners →
      q ∈ listenerPs s.listeners ∨ q = s.nextP) := by
  refine ⟨?_, ?_, ?_⟩
  · unfold setAnonymousId
    rcases hc : s.client with _ | h <;> simp
  · intro q hq
    unfold setAnonymousId at hq
    rcases hc : s.client with _ | h
    · rw [hc] at hq
      exact Or.inl hq
    · rw [hc] at hq
      dsimp only at hq
      rw [resolvedIds_append, resolvedIds_single_invoke] at hq
      simp only [List.append_nil] at hq
      exact Or.inl hq
  · intro q hq
    unfold setAnonymousId at hq
    rcases hc : s.client with _ | h
    · rw [hc] at hq
      dsimp only at hq
      rw [listenerPs_append, listenerPs_setAnonL] at hq
      simp only [List.mem_append, List.mem_singleton] at hq
      tauto
    · rw [hc] at hq
      exact Or.inl hq

end SegmentClient

end ReactSegmentHooks

namespace ReactSegmentHooks

namespace SegmentClient

theorem page_pfree (e : PageEvent) (s : SegmentState) (p : Nat) (hf : PFree p s) :
    PFree p ((page e s).1) :=
  pfree_transfer p s _ hf (page_step e s).1 (page_step e s).2.1 (page_step e s).2.2

theorem identify_pfree (e : IdentifyEvent) (s : SegmentState) (p : Nat) (hf : PFree p s) :
    PFree p ((identify e s).1) :=
  pfree_transfer p s _ hf (identify_step e s).1 (identify_step e s).2.1
    (identify_step e s).2.2

theorem aliasM_pfree (e : AliasEvent) (s : SegmentState) (p : Nat) (hf : PFree p s) :
    PFree p ((aliasM e s).1) :=
  pfree_transfer p s _ hf (aliasM_step e s).1 (aliasM_step e s).2.1 (aliasM_step e s).2.2

theorem track_pfree (t : TrackEvent) (s : SegmentState) (p : Nat) (hf : PFree p s) :
    PFree p ((track t s).1) :=
  pfree_transfer p s _ hf (track_step t s).1 (track_step t s).2.1 (track_step t s).2.2

theorem group_pfree (e : GroupEvent) (s : SegmentState) (p : Nat) (hf : PFree p s) :
    PFree p ((group e s).1) :=
  pfree_transfer p s _ hf (group_step e s).1 (group_step e s).2.1 (group_step e s).2.2

theorem ready_pfree (s : SegmentState) (p : Nat) (hf : PFree p s) :
    PFree p ((ready s).1) :=
  pfree_transfer p s _ hf (ready_step s).1 (ready_step s).2.1 (ready_step s).2.2

theorem onM_pfree (m : EventType) (s : SegmentState) (p : Nat) (hf : PFree p s) :
    PFree p (onM m s) :=
  pfree_transfer p s _ hf (onM_step m s).1 (onM_step m s).2.1 (onM_step m s).2.2

theorem setAnonymousId_pfree (id : String) (s : SegmentState) (p : Nat) (hf : PFree p s) :
    PFree p ((setAnonymousId id s).1) :=
  pfree_transfer p s _ hf (setAnonymousId_step id s).1 (setAnonymousId_step id s).2.1
    (setAnonymousId_step id s).2.2

/-! Traces only grow. -/

theorem page_trace_mono (e : PageEvent) (s : SegmentState) :
    ∃ t, ((page e s).1).trace = s.trace ++ t := by
  unfold page
  rcases hc : s.client with _ | h
  · exact ⟨[], by simp⟩
  · rcases ht : h.throwsPage with _ | err
    · exact ⟨[Ev.invoke (UCall.page e.category e.name e.properties
        (mergedOpts e.options (s.options.anonymizeIp.getD false))),
        Ev.resolveP s.nextP], by simp [ht]⟩
    · exact ⟨[Ev.invoke (UCall.page e.category e.name e.properties
        (mergedOpts e.options (s.options.anonymizeIp.getD false))),
        Ev.rejectP s.nextP err], by simp [ht]⟩

theorem identify_trace_mono (e : IdentifyEvent) (s : SegmentState) :
    ∃ t, ((identify e s).1).trace = s.trace ++ t := by
  unfold identify
  rcases hc : s.client with _ | h
  · exact ⟨[], by simp⟩
  · rcases ht : h.throwsIdentify with _ | err
    · exact ⟨[Ev.invoke (UCall.identify e.userId e.traits
        (mergedOpts e.options (s.options.anonymizeIp.getD false))),
        Ev.resolveP s.nextP], by simp [ht]⟩
    · exact ⟨[Ev.invoke (UCall.identify e.userId e.traits
        (mergedOpts e.options (s.options.anonymizeIp.getD false))),
        Ev.rejectP s.nextP err], by simp [ht]⟩

theorem aliasM_trace_mono (e : AliasEvent) (s : SegmentState) :
    ∃ t, ((aliasM e s).1).trace = s.trace ++ t := by
  unfold aliasM
  rcases hc : s.client with _ | h
  · exact ⟨[], by simp⟩
  · rcases ht : h.throwsAlias with _ | err
    · exact ⟨[Ev.invoke (UCall.aliasU e.userId e.previousId e.options),
        Ev.resolveP s.nextP], by simp [ht]⟩
    · exact ⟨[Ev.invoke (UCall.aliasU e.userId e.previousId e.options),
        Ev.rejectP s.nextP err], by simp [ht]⟩

theorem track_trace_mono (t : TrackEvent) (s : SegmentState) :
    ∃ u, ((track t s).1).trace = s.trace ++ u := by
  unfold track
  rcases hc : s.client with _ | h
  · exact ⟨[], by simp⟩
  · rcases ht : h.throwsTrack with _ | err
    · exact ⟨[Ev.invoke (UCall.track t.event t.properties
        (mergedOpts t.options (s.options.anonymizeIp.getD false))),
        Ev.resolveP s.nextP], by simp [ht]⟩
    · exact ⟨[Ev.invoke (UCall.track t.event t.properties
        (mergedOpts t.options (s.options.anonymizeIp.getD false))),
        Ev.rejectP s.nextP err], by simp [ht]⟩

theorem group_trace_mono (e : GroupEvent) (s : SegmentState) :
    ∃ t, ((group e s).1).trace = s.trace ++ t := by
  unfold group
  rcases hc : s.client with _ | h
  · exact ⟨[], by simp⟩
  · rcases ht : h.throwsGroup with _ | err
    · exact ⟨[Ev.invoke (UCall.group e.groupId e.traits
        (mergedOpts e.options (s.options.anonymizeIp.getD false))),
        Ev.resolveP s.nextP], by simp [ht]⟩
    · exact ⟨[Ev.invoke (UCall.group e.groupId e.traits
        (mergedOpts e.options (s.options.anonymizeIp.getD false))),
        Ev.rejectP s.nextP err], by simp [ht]⟩

theorem ready_trace_mono (s : SegmentState) :
    ∃ t, ((ready s).1).trace = s.trace ++ t := by
  unfold ready
  rcases hc : s.client with _ | h
  · exact ⟨[], by simp⟩
  · exact ⟨[Ev.invoke UCall.ready, Ev.resolveP s.nextP], by simp⟩

theorem onM_trace_mono (m : EventType) (s : SegmentState) :
    ∃ t, (onM m s).trace = s.trace ++ t := by
  unfold onM
  rcases hc : s.client with _ | h
  · exact ⟨[], by simp⟩
  · exact ⟨[Ev.invoke (UCall.onU m)], by simp⟩

theorem setAnonymousId_trace_mono (id : String) (s : SegmentState) :
    ∃ t, ((setAnonymousId id s).1).trace = s.trace ++ t := by
  unfold setAnonymousId
  rcases hc : s.client with _ | h
  · exact ⟨[], by simp⟩
  · exact ⟨[Ev.invoke (UCall.setAnonymousId id)], by simp⟩

theorem runListener_trace_mono (l : Listener) (s : SegmentState) :
    ∃ t, (runListener l s).trace = s.trace ++ t := by
  cases l with
  | pageL e p =>
    dsimp only [runListener]
    obtain ⟨t, ht⟩ := page_trace_mono e s
    split
    · exact ⟨t ++ [Ev.resolveP p], by rw [ht, List.append_assoc]⟩
    · exact ⟨t, ht⟩
  | identifyL e => exact identify_trace_mono e s
  | aliasL e => exact aliasM_trace_mono e s
  | trackL t => exact track_trace_mono t s
  | groupL e => exact group_trace_mono e s
  | readyL => exact ready_trace_mono s
  | onL m => exact onM_trace_mono m s
  | setAnonL id p =>
    dsimp only [runListener]
    obtain ⟨t, ht⟩ := setAnonymousId_trace_mono id s
    exact ⟨t ++ [Ev.resolveP p], by rw [ht, List.append_assoc]⟩

theorem runListener_resolved_mono (l : Listener) (s : SegmentState) (q : Nat)
    (hq : q ∈ resolvedIds s.trace) : q ∈ resolvedIds (runListener l s).trace := by
  obtain ⟨t, ht⟩ := runListener_trace_mono l s
  rw [ht, resolvedIds_append, List.mem_append]
  exact Or.inl hq

theorem runListeners_resolved_mono (L : List Listener) (s : SegmentState) (q : Nat)
    (hq : q ∈ resolvedIds s.trace) : q ∈ resolvedIds (runListeners L s).trace := by
  induction L generalizing s with
  | nil => exact hq
  | cons l ls ih =>
    exact ih (runListener l s) (runListener_resolved_mono l s q hq)

/-- A deferred `setAnonymousId` listener, once fired with the handle present,
resolves its stored promise. -/
theorem runListeners_setAnonL_resolves (L : List Listener) (s : SegmentState)
    (h : Analytics) (hs : s.client = some h) (id : String) (p : Nat)
    (hmem : Listener.setAnonL id p ∈ L) :
    p ∈ resolvedIds (runListeners L s).trace := by
  induction L generalizing s with
  | nil => cases hmem
  | cons l ls ih =>
    rw [runListeners]
    rcases List.mem_cons.mp hmem with heq | hmem2
    · have hres : p ∈ resolvedIds (runListener l s).trace := by
        rw [← heq]
        dsimp only [runListener]
        rw [resolvedIds_append, resolvedIds_single, List.mem_append]
        exact Or.inr (List.mem_singleton.mpr rfl)
      exact runListeners_resolved_mono ls (runListener l s) p hres
    · have hs2 : (runListener l s).client = some h := by
        rw [(runListener_pres l s).1]; exact hs
      exact ih (runListener l s) hs2 hmem2

theorem runListener_pfree (l : Listener) (s : SegmentState) (p : Nat)
    (hf : PFree p s) (hl : p ∉ listenerPs [l]) : PFree p (runListener l s) := by
  cases l with
  | pageL e p0 =>
    have hp0 : p ≠ p0 := by
      rw [listenerPs_pageL] at hl
      simp only [List.mem_singleton] at hl
      exact hl
    have hf2 := page_pfree e s p hf
    dsimp only [runListener]
    split
    · obtain ⟨a, b, c⟩ := hf2
      refine ⟨a, fun hq => ?_, c⟩
      rw [resolvedIds_append, resolvedIds_single, List.mem_append,
        List.mem_singleton] at hq
      rcases hq with hq | hq
      · exact b hq
      · exact hp0 hq
    · exact hf2
  | identifyL e => exact identify_pfree e s p hf
  | aliasL e => exact aliasM_pfree e s p hf
  | trackL t => exact track_pfree t s p hf
  | groupL e => exact group_pfree e s p hf
  | readyL => exact ready_pfree s p hf
  | onL m => exact onM_pfree m s p hf
  | setAnonL id p0 =>
    have hp0 : p ≠ p0 := by
      rw [listenerPs_setAnonL] at hl
      simp only [List.mem_singleton] at hl
      exact hl
    have hf2 := setAnonymousId_pfree id s p hf
    dsimp only [runListener]
    obtain ⟨a, b, c⟩ := hf2
    refine ⟨a, fun hq => ?_, c⟩
    rw [resolvedIds_append, resolvedIds_single, List.mem_append,
      List.mem_singleton] at hq
    rcases hq with hq | hq
    · exact b hq
    · exact hp0 hq

theorem runListeners_pfree (L : List Listener) (s : SegmentState) (p : Nat)
    (hf : PFree p s) (hL : p ∉ listenerPs L) : PFree p (runListeners L s) := by
  induction L generalizing s with
  | nil => exact hf
  | cons l ls ih =>
    have hsplit : p ∉ listenerPs [l] ∧ p ∉ listenerPs ls := by
      have : l :: ls = [l] ++ ls := rfl
      rw [this, listenerPs_append] at hL
      simp only [List.mem_append, not_or] at hL
      exact hL
    exact ih (runListener l s) (runListener_pfree l s p hf hsplit.1) hsplit.2

theorem init_pfree (h : Analytics) (s : SegmentState) (p : Nat) (hf : PFree p s) :
    PFree p (init h s) := by
  unfold init
  rcases hc : s.client with _ | h2
  · dsimp only
    refine runListeners_pfree s.listeners _ p ?_ hf.2.2
    obtain ⟨a, b, c⟩ := hf
    refine ⟨a, fun hq => ?_, by simp [listenerPs]⟩
    rw [resolvedIds_append, resolvedIds_cfg, List.append_nil] at hq
    exact b hq
  · exact hf

end SegmentClient

theorem applyOp_pfree (op : Op) (s : SegmentState) (p : Nat) (hf : PFree p s) :
    PFree p (applyOp op s) := by
  cases op with
  | init h => exact SegmentClient.init_pfree h s p hf
  | page e => exact SegmentClient.page_pfree e s p hf
  | identify e => exact SegmentClient.identify_pfree e s p hf
  | aliasO e => exact SegmentClient.aliasM_pfree e s p hf
  | track t => exact SegmentClient.track_pfree t s p hf
  | group e => exact SegmentClient.group_pfree e s p hf
  | ready => exact SegmentClient.ready_pfree s p hf
  | onO m => exact SegmentClient.onM_pfree m s p hf
  | setAnonymousId id => exact SegmentClient.setAnonymousId_pfree id s p hf

theorem applyOps_pfree (ops : List Op) (s : SegmentState) (p : Nat) (hf : PFree p s) :
    PFree p (applyOps ops s) := by
  induction ops generalizing s with
  | nil => exact hf
  | cons op ops ih => exact ih (applyOp op s) (applyOp_pfree op s p hf)

end ReactSegmentHooks

namespace ReactSegmentHooks

/-- Claim C10: with the handle already present, `setAnonymousId` invokes the
underlying `setAnonymousId` but never resolves the promise handed to the
caller — no subsequent sequence of wrapper operations can resolve it; the
resolver is invoked only on the deferred (handle-absent) path, where the
queued listener re-invokes the call and then resolves the original promise. -/
theorem setAnonymousId_resolve_only_deferred (s : SegmentState) (h : Analytics)
    (id : String) (hs : s.client = some h)
    (hr : s.nextP ∉ resolvedIds s.trace) (hl : s.nextP ∉ listenerPs s.listeners) :
    ((SegmentClient.setAnonymousId id s).1).trace
      = s.trace ++ [Ev.invoke (UCall.setAnonymousId id)] ∧
    (SegmentClient.setAnonymousId id s).2 = s.nextP ∧
    (∀ ops : List Op,
      s.nextP ∉ resolvedIds
        (applyOps ops ((SegmentClient.setAnonymousId id s).1)).trace) ∧
    (∀ (s2 : SegmentState) (h2 : Analytics), s2.client = none →
      (SegmentClient.setAnonymousId id s2).2
        ∈ resolvedIds
            (SegmentClient.init h2 ((SegmentClient.setAnonymousId id s2).1)).trace) := by
  have heq : (SegmentClient.setAnonymousId id s).1
      = { s with nextP := s.nextP + 1,
                 trace := s.trace ++ [Ev.invoke (UCall.setAnonymousId id)] } := by
    simp only [SegmentClient.setAnonymousId, hs]
  have heq2 : (SegmentClient.setAnonymousId id s).2 = s.nextP := by
    simp only [SegmentClient.setAnonymousId, hs]
  refine ⟨by rw [heq], heq2, ?_, ?_⟩
  · intro ops
    refine (applyOps_pfree ops _ s.nextP ?_).2.1
    rw [heq]
    refine ⟨Nat.lt_succ_self s.nextP, ?_, hl⟩
    show s.nextP ∉ resolvedIds (s.trace ++ [Ev.invoke (UCall.setAnonymousId id)])
    rw [resolvedIds_append, resolvedIds_single_invoke, List.append_nil]
    exact hr
  · intro s2 h2 hs2
    have heq3 : (SegmentClient.setAnonymousId id s2).1
        = { s2 with nextP := s2.nextP + 1,
                    listeners := s2.listeners ++ [Listener.setAnonL id s2.nextP] } := by
      simp only [SegmentClient.setAnonymousId, hs2]
    have heq4 : (SegmentClient.setAnonymousId id s2).2 = s2.nextP := by
      simp only [SegmentClient.setAnonymousId, hs2]
    rw [heq3, heq4]
    unfold SegmentClient.init
    dsimp only
    rw [hs2]
    dsimp only
    exact SegmentClient.runListeners_setAnonL_resolves _ _ h2 rfl id s2.nextP
      (List.mem_append.mpr (Or.inr (List.mem_singleton.mpr rfl)))

/-- Witness for C10 at a concrete initialized wrapper. -/
theorem setAnonymousId_resolve_only_deferred_w :
    (sReady.client = some h0 ∧ sReady.nextP ∉ resolvedIds sReady.trace ∧
      sReady.nextP ∉ listenerPs sReady.listeners) ∧
    ((SegmentClient.setAnonymousId "anon" sReady).1).trace
      = sReady.trace ++ [Ev.invoke (UCall.setAnonymousId "anon")] ∧
    sReady.nextP ∉ resolvedIds (applyOps [Op.track { event := "T" }]
        ((SegmentClient.setAnonymousId "anon" sReady).1)).trace :=
  ⟨⟨by decide, by decide, by decide⟩,
   (setAnonymousId_resolve_only_deferred sReady h0 "anon" (by decide) (by decide)
      (by decide)).1,
   (setAnonymousId_resolve_only_deferred sReady h0 "anon" (by decide) (by decide)
      (by decide)).2.2.1 [Op.track { event := "T" }]⟩

/-- Counterexample to claim C4 as stated: an `identify` call issued while the
handle is absent never resolves its promise, even though the deferred replay
ran and the replay's own completion callback fired (the replay's fresh
promise, id 1, is resolved) — the deferred path drops the original resolver
instead of chaining it. -/
theorem deferred_chain_cex :
    (SegmentClient.identify { userId := "u" } (initialState opts0)).2 = 0 ∧
    (1 : Nat) ∈ resolvedIds
      (SegmentClient.init h0
        ((SegmentClient.identify { userId := "u" } (initialState opts0)).1)).trace ∧
    (0 : Nat) ∉ resolvedIds
      (SegmentClient.init h0
        ((SegmentClient.identify { userId := "u" } (initialState opts0)).1)).trace := by
  decide

end ReactSegmentHooks

namespace ReactSegmentHooks

/-- Claim C4 (amended): of the five event methods called while the handle is
absent, only `page` chains the deferred replay's completion into the original
promise: after `initialize`, the trace ends with the replayed invocation, the
replay's own resolution, and then — and only then — the resolution of the
original promise.  For `identify`, `alias`, `track` and `group` the original
promise is never resolved: the deferred listener re-invokes the method with a
fresh promise and drops the original resolver, so no sequence of further
wrapper operations can ever resolve it. -/
theorem deferred_completion_chain (opts : Options) (h : Analytics)
    (hp : h.throwsPage = none) :
    (∀ e : PageEvent,
      (SegmentClient.page e (initialState opts)).2 = 0 ∧
      resolvedIds ((SegmentClient.page e (initialState opts)).1).trace = [] ∧
      (SegmentClient.init h ((SegmentClient.page e (initialState opts)).1)).trace
        = [Ev.cfgTimeout (opts.timeout.getD 200), Ev.cfgDebug (opts.debug.getD false),
           Ev.emitInit,
           Ev.invoke (UCall.page e.category e.name e.properties
             (mergedOpts e.options (opts.anonymizeIp.getD false))),
           Ev.resolveP 1, Ev.resolveP 0]) ∧
    (∀ e : IdentifyEvent,
      (SegmentClient.identify e (initialState opts)).2 = 0 ∧
      ∀ ops : List Op, (0 : Nat) ∉ resolvedIds (applyOps ops
        (SegmentClient.init h
          ((SegmentClient.identify e (initialState opts)).1))).trace) ∧
    (∀ e : AliasEvent,
      (SegmentClient.aliasM e (initialState opts)).2 = 0 ∧
      ∀ ops : List Op, (0 : Nat) ∉ resolvedIds (applyOps ops
        (SegmentClient.init h
          ((SegmentClient.aliasM e (initialState opts)).1))).trace) ∧
    (∀ t : TrackEvent,
      (SegmentClient.track t (initialState opts)).2 = 0 ∧
      ∀ ops : List Op, (0 : Nat) ∉ resolvedIds (applyOps ops
        (SegmentClient.init h
          ((SegmentClient.track t (initialState opts)).1))).trace) ∧
    (∀ e : GroupEvent,
      (SegmentClient.group e (initialState opts)).2 = 0 ∧
      ∀ ops : List Op, (0 : Nat) ∉ resolvedIds (applyOps ops
        (SegmentClient.init h
          ((SegmentClient.group e (initialState opts)).1))).trace) := by
  refine ⟨fun e => ⟨rfl, rfl, ?_⟩,
          fun e => ⟨rfl, fun ops => ?_⟩,
          fun e => ⟨rfl, fun ops => ?_⟩,
          fun t => ⟨rfl, fun ops => ?_⟩,
          fun e => ⟨rfl, fun ops => ?_⟩⟩
  · simp [SegmentClient.init, SegmentClient.runListeners, SegmentClient.runListener,
      SegmentClient.page, initialState, hp, resolvedIds]
  · exact (applyOps_pfree ops _ 0 (SegmentClient.init_pfree h _ 0
      ⟨Nat.zero_lt_one, List.not_mem_nil 0, List.not_mem_nil 0⟩)).2.1
  · exact (applyOps_pfree ops _ 0 (SegmentClient.init_pfree h _ 0
      ⟨Nat.zero_lt_one, List.not_mem_nil 0, List.not_mem_nil 0⟩)).2.1
  · exact (applyOps_pfree ops _ 0 (SegmentClient.init_pfree h _ 0
      ⟨Nat.zero_lt_one, List.not_mem_nil 0, List.not_mem_nil 0⟩)).2.1
  · exact (applyOps_pfree ops _ 0 (SegmentClient.init_pfree h _ 0
      ⟨Nat.zero_lt_one, List.not_mem_nil 0, List.not_mem_nil 0⟩)).2.1

/-- Witness for the amended C4: a concrete deferred page call resolves its
original promise right after the replay completes, while a concrete deferred
group call never resolves its promise. -/
theorem deferred_completion_chain_w :
    h0.throwsPage = none ∧
    (SegmentClient.init h0
        ((SegmentClient.page { name := some "P" } (initialState opts0)).1)).trace
      = [Ev.cfgTimeout (opts0.timeout.getD 200), Ev.cfgDebug (opts0.debug.getD false),
         Ev.emitInit,
         Ev.invoke (UCall.page none (some "P") none
           (mergedOpts none (opts0.anonymizeIp.getD false))),
         Ev.resolveP 1, Ev.resolveP 0] ∧
    (0 : Nat) ∉ resolvedIds (applyOps []
      (SegmentClient.init h0
        ((SegmentClient.group { groupId := "G" } (initialState opts0)).1))).trace :=
  ⟨rfl,
   ((deferred_completion_chain opts0 h0 rfl).1 { name := some "P" }).2.2,
   ((deferred_completion_chain opts0 h0 rfl).2.2.2.2 { groupId := "G" }).2 []⟩

end ReactSegmentHooks
